import Mathlib

/-!
Shallow embedding of the real-time client synchronization layer of the
pygent dashboard front-end: the Zustand domain state store
(src/stores/appStore.ts), the WebSocket transport session and its
publish/subscribe event bus (src/services/websocket.ts).

JavaScript `Map` objects are modelled as insertion-ordered association
lists with `mapGet`/`mapSet`; `Partial<T>` update records are modelled as
structures whose every field is wrapped in `Option` (a `some` field is a
key present in the update object, `none` is an absent key); the object
spread `{...old, ...updates}` becomes a field-wise `Option.getD`.
Nested payload records whose internals no operation inspects
(server health/config/stats, convergence metrics payloads) are carried as
plain values.
-/

namespace PyGent

/-! ## Association-list model of a JavaScript Map (insertion-ordered) -/

def mapGet {α : Type} : List (String × α) → String → Option α
  | [], _ => none
  | (k', v) :: rest, k => if k' = k then some v else mapGet rest k

def mapSet {α : Type} : List (String × α) → String → α → List (String × α)
  | [], k, v => [(k, v)]
  | (k', v') :: rest, k, v =>
      if k' = k then (k, v) :: rest else (k', v') :: mapSet rest k v

theorem mapGet_mapSet_self {α : Type} (m : List (String × α)) (k : String) (v : α) :
    mapGet (mapSet m k v) k = some v := by
  induction m with
  | nil => simp [mapSet, mapGet]
  | cons p rest ih =>
      obtain ⟨k', v'⟩ := p
      by_cases h : k' = k
      · simp [mapSet, mapGet, h]
      · simp [mapSet, mapGet, h, ih]

theorem mapGet_mapSet_ne {α : Type} (m : List (String × α)) (k k' : String) (v : α)
    (hne : k' ≠ k) : mapGet (mapSet m k v) k' = mapGet m k' := by
  have h1 : ¬ (k = k') := fun hh => hne hh.symm
  induction m with
  | nil => simp [mapSet, mapGet, h1]
  | cons p rest ih =>
      obtain ⟨k₀, v₀⟩ := p
      by_cases h : k₀ = k
      · have h2 : ¬ (k₀ = k') := by rw [h]; exact h1
        simp [mapSet, mapGet, h, h1, h2]
      · by_cases h' : k₀ = k'
        · simp [mapSet, mapGet, h, h', hne]
        · simp [mapSet, mapGet, h, h', ih]

theorem mapSet_self {α : Type} (m : List (String × α)) (k : String) (v : α)
    (hget : mapGet m k = some v) : mapSet m k v = m := by
  induction m with
  | nil => simp [mapGet] at hget
  | cons p rest ih =>
      obtain ⟨k₀, v₀⟩ := p
      by_cases h : k₀ = k
      · subst h
        simp [mapGet] at hget
        simp [mapSet, hget]
      · simp [mapGet, h] at hget
        simp [mapSet, h, ih hget]

/-! ## Domain data model (src/types/index.ts) -/

/-- Message record `ChatMessage`: id, role tag (`type`), content, optional agent id,
timestamp, optional metadata.  Content and metadata payloads are carried
as strings; timestamps as naturals. -/
structure ChatMessage where
  id : String
  type : String
  content : String
  agentId : Option String
  timestamp : Nat
  metadata : Option String
deriving DecidableEq

/-- Update record `Partial<ChatMessage>`: every field optionally present. -/
structure ChatMessageUpdate where
  id : Option String := none
  type : Option String := none
  content : Option String := none
  agentId : Option (Option String) := none
  timestamp : Option Nat := none
  metadata : Option (Option String) := none
deriving DecidableEq

/-- The spread `{ ...msg, ...updates }` at `ChatMessage` type. -/
def mergeMessage (m : ChatMessage) (u : ChatMessageUpdate) : ChatMessage where
  id := u.id.getD m.id
  type := u.type.getD m.type
  content := u.content.getD m.content
  agentId := u.agentId.getD m.agentId
  timestamp := u.timestamp.getD m.timestamp
  metadata := u.metadata.getD m.metadata

/-- Registry record `MCPServer`: top-level record of the server registry.  The nested
`health`/`config`/`stats` records are carried as plain payload values
since `updateMCPServer` only spreads at the top level. -/
structure MCPServer where
  id : String
  name : String
  type : String
  status : String
  version : String
  description : String
  capabilities : List String
  health : String
  config : String
  stats : String
deriving DecidableEq

/-- Update record `Partial<MCPServer>`. -/
structure MCPServerUpdate where
  id : Option String := none
  name : Option String := none
  type : Option String := none
  status : Option String := none
  version : Option String := none
  description : Option String := none
  capabilities : Option (List String) := none
  health : Option String := none
  config : Option String := none
  stats : Option String := none
deriving DecidableEq

/-- The spread `{ ...server, ...updates }` at `MCPServer` type. -/
def mergeServer (r : MCPServer) (u : MCPServerUpdate) : MCPServer where
  id := u.id.getD r.id
  name := u.name.getD r.name
  type := u.type.getD r.type
  status := u.status.getD r.status
  version := u.version.getD r.version
  description := u.description.getD r.description
  capabilities := u.capabilities.getD r.capabilities
  health := u.health.getD r.health
  config := u.config.getD r.config
  stats := u.stats.getD r.stats

/-- One `FitnessData` entry of the evolution fitness history. -/
structure FitnessData where
  generation : Nat
  average : Rat
  best : Rat
  worst : Rat
deriving DecidableEq

/-- Convergence payload `ConvergenceData` of the evolution snapshot. -/
structure ConvergenceData where
  rate : Rat
  plateau_generations : Nat
  improvement_threshold : Rat
  is_converged : Bool
deriving DecidableEq

/-- Snapshot `EvolutionState` (recipes carried as identifiers). -/
structure EvolutionState where
  isRunning : Bool
  currentGeneration : Nat
  maxGenerations : Nat
  populationSize : Nat
  bestRecipes : List String
  fitnessHistory : List FitnessData
  convergenceMetrics : ConvergenceData
  elapsedTime : Nat
deriving DecidableEq

/-- Update record `Partial<EvolutionState>`. -/
structure EvolutionUpdate where
  isRunning : Option Bool := none
  currentGeneration : Option Nat := none
  maxGenerations : Option Nat := none
  populationSize : Option Nat := none
  bestRecipes : Option (List String) := none
  fitnessHistory : Option (List FitnessData) := none
  convergenceMetrics : Option ConvergenceData := none
  elapsedTime : Option Nat := none
deriving DecidableEq

/-- The spread `{ ...get().evolutionState, ...updates }`. -/
def mergeEvolution (st : EvolutionState) (u : EvolutionUpdate) : EvolutionState where
  isRunning := u.isRunning.getD st.isRunning
  currentGeneration := u.currentGeneration.getD st.currentGeneration
  maxGenerations := u.maxGenerations.getD st.maxGenerations
  populationSize := u.populationSize.getD st.populationSize
  bestRecipes := u.bestRecipes.getD st.bestRecipes
  fitnessHistory := u.fitnessHistory.getD st.fitnessHistory
  convergenceMetrics := u.convergenceMetrics.getD st.convergenceMetrics
  elapsedTime := u.elapsedTime.getD st.elapsedTime

/-- Default `initialEvolutionState` of appStore.ts. -/
def initialEvolutionState : EvolutionState where
  isRunning := false
  currentGeneration := 0
  maxGenerations := 100
  populationSize := 20
  bestRecipes := []
  fitnessHistory := []
  convergenceMetrics :=
    { rate := 0,
      plateau_generations := 0,
      improvement_threshold := 1 / 100,
      is_converged := false }
  elapsedTime := 0

/-! ## The store state and its mutators (src/stores/appStore.ts) -/

/-- The slice of `AppState` that the verified mutators read or write:
the conversation map, the active conversation id, the MCP server
registry and the evolution snapshot. -/
structure AppState where
  conversations : List (String × List ChatMessage)
  activeConversation : String
  mcpServers : List MCPServer
  evolutionState : EvolutionState
deriving DecidableEq

/-- Mutator `addMessage(conversationId, message)`:
reads the conversation (defaulting to `[]`), appends the message, and
writes the list back under the same key. -/
def addMessage (s : AppState) (conversationId : String) (message : ChatMessage) : AppState :=
  let messages := (mapGet s.conversations conversationId).getD []
  { s with conversations := mapSet s.conversations conversationId (messages ++ [message]) }

/-- Mutator `updateMessage(conversationId, messageId, updates)`:
maps over the conversation's messages, spreading `updates` into the
message whose id matches, and writes the list back. -/
def updateMessage (s : AppState) (conversationId messageId : String)
    (updates : ChatMessageUpdate) : AppState :=
  let messages := (mapGet s.conversations conversationId).getD []
  let updatedMessages := messages.map
    (fun msg => if msg.id = messageId then mergeMessage msg updates else msg)
  { s with conversations := mapSet s.conversations conversationId updatedMessages }

/-- Mutator `setActiveConversation(conversationId)`:
inserts an empty message list when the key is absent, then records the
new active conversation. -/
def setActiveConversation (s : AppState) (conversationId : String) : AppState :=
  let conversations :=
    if (mapGet s.conversations conversationId).isSome then s.conversations
    else mapSet s.conversations conversationId []
  { s with activeConversation := conversationId, conversations := conversations }

/-- Mutator `updateMCPServer(serverId, updates)`:
maps over the registry, spreading `updates` into each record whose id
matches.  (The map inserts nothing when the id is absent.) -/
def updateMCPServer (s : AppState) (serverId : String) (updates : MCPServerUpdate) : AppState :=
  let mcpServers := s.mcpServers.map
    (fun server => if server.id = serverId then mergeServer server updates else server)
  { s with mcpServers := mcpServers }

/-- Mutator `updateEvolutionState(updates)`: shallow spread into the snapshot. -/
def updateEvolutionState (s : AppState) (updates : EvolutionUpdate) : AppState :=
  { s with evolutionState := mergeEvolution s.evolutionState updates }

/-- Fold a sequence of `addMessage` calls over one conversation. -/
def addMessages (s : AppState) (conversationId : String) : List ChatMessage → AppState
  | [] => s
  | m :: ms => addMessages (addMessage s conversationId m) conversationId ms

/-! ## Transport session (src/services/websocket.ts, class WebSocketService)

The session's observable state: the `ws` field (`none` models
`this.ws === null`, `some r` a socket object whose `readyState` is `r`),
the reconnect-attempt counter and the `isConnecting` flag, together with
instrumentation that records pending reconnection timers (FIFO by their
delay), the full history of delays ever scheduled, the events emitted on
the service's own bus, and how many `new WebSocket(...)` constructions
have run. -/

/-- Browser `WebSocket.readyState` values the service inspects. -/
inductive ReadyState
  | connecting
  | opened
  | closed
deriving DecidableEq

/-- Events the session emits on its bus that the verified claims track. -/
inductive WSEvent
  | connectionStatus (connected : Bool)
  | connectionFailed (attempts : Nat)
deriving DecidableEq

structure WSState where
  ws : Option ReadyState
  reconnectAttempts : Nat
  isConnecting : Bool
  pendingTimers : List Nat
  timersScheduled : List Nat
  emitted : List WSEvent
  socketsCreated : Nat
deriving DecidableEq

def maxReconnectAttempts : Nat := 5

def reconnectDelay : Nat := 1000

def initialWSState : WSState where
  ws := none
  reconnectAttempts := 0
  isConnecting := false
  pendingTimers := []
  timersScheduled := []
  emitted := []
  socketsCreated := 0

/-- Method `handleReconnect()`: at the attempt cap, emit `connection_failed`
with the attempt count and stop; below it, increment the counter and
schedule a timer with delay `reconnectDelay * 2 ^ (attempts - 1)`. -/
def handleReconnect (s : WSState) : WSState :=
  if s.reconnectAttempts ≥ maxReconnectAttempts then
    { s with emitted := s.emitted ++ [WSEvent.connectionFailed s.reconnectAttempts] }
  else
    let attempts := s.reconnectAttempts + 1
    let delay := reconnectDelay * 2 ^ (attempts - 1)
    { s with reconnectAttempts := attempts,
             pendingTimers := s.pendingTimers ++ [delay],
             timersScheduled := s.timersScheduled ++ [delay] }

/-- Outcome of one `connect()` call, as seen by its caller. -/
inductive ConnectResult
  | resolvedOpen
  | waitsOnAttempt
  | attemptStarted
deriving DecidableEq

/-- Method `connect(url)`: resolve immediately when the socket is already open;
poll the in-flight attempt when `isConnecting`; otherwise construct a
fresh `WebSocket` (readyState CONNECTING) and mark `isConnecting`. -/
def connect (s : WSState) : WSState × ConnectResult :=
  if s.ws = some ReadyState.opened then (s, ConnectResult.resolvedOpen)
  else if s.isConnecting then (s, ConnectResult.waitsOnAttempt)
  else
    ({ s with isConnecting := true,
              ws := some ReadyState.connecting,
              socketsCreated := s.socketsCreated + 1 },
     ConnectResult.attemptStarted)

/-- The `ws.onopen` callback: clear `isConnecting`, zero the attempt
counter, emit `connection_status {connected: true}`.  Fires only on the
socket the service holds while it is still connecting. -/
def onOpen (s : WSState) : WSState :=
  match s.ws with
  | some ReadyState.connecting =>
      { s with isConnecting := false,
               reconnectAttempts := 0,
               ws := some ReadyState.opened,
               emitted := s.emitted ++ [WSEvent.connectionStatus true] }
  | _ => s

/-- The `ws.onclose` callback: clear `isConnecting`, emit
`connection_status {connected: false}`, and, when the close code is not
1000 (unclean close), run `handleReconnect`. -/
def onClose (s : WSState) (code : Nat) : WSState :=
  match s.ws with
  | none => s
  | some ReadyState.closed => s
  | some _ =>
      let s1 := { s with isConnecting := false,
                         ws := some ReadyState.closed,
                         emitted := s.emitted ++ [WSEvent.connectionStatus false] }
      if code ≠ 1000 then handleReconnect s1 else s1

/-- Method `disconnect()`: it runs `ws.close(1000, ...)` then `this.ws = null`.
No timer handle is stored anywhere in the class, so the pending-timer
list is untouched.  (It also clears the event-handler map, which lives
in the separate bus model below.) -/
def disconnect (s : WSState) : WSState :=
  match s.ws with
  | some _ => { s with ws := none }
  | none => s

/-- Expiry of the earliest pending reconnection timer.  The callback is
`if (!this.ws || this.ws.readyState === WebSocket.CLOSED) connect(url)`. -/
def timerFire (s : WSState) : WSState :=
  match s.pendingTimers with
  | [] => s
  | _ :: rest =>
      let s1 := { s with pendingTimers := rest }
      match s1.ws with
      | none => (connect s1).1
      | some ReadyState.closed => (connect s1).1
      | some _ => s1

/-- External stimuli driving one execution of the session. -/
inductive WSAction
  | connectCall
  | disconnectCall
  | openEvt
  | closeEvt (code : Nat)
  | timerEvt
deriving DecidableEq

def wsStep (s : WSState) : WSAction → WSState
  | WSAction.connectCall => (connect s).1
  | WSAction.disconnectCall => disconnect s
  | WSAction.openEvt => onOpen s
  | WSAction.closeEvt code => onClose s code
  | WSAction.timerEvt => timerFire s

def wsRun (s : WSState) : List WSAction → WSState
  | [] => s
  | a :: rest => wsRun (wsStep s a) rest

/-! ## Event bus (`on` / its unsubscribe closure / `emit`)

`eventHandlers : Map<string, EventHandler[]>` keeps, per event type, the
handlers in registration order.  Handlers are JavaScript function
references, compared by identity in `indexOf`; the model identifies them
by naturals.  A handler invocation `handler(data)` either returns or
throws, modelled by a `behavior` function into `Except String Unit`. -/

def EventBus : Type := List (String × List Nat)

/-- Lookup `this.eventHandlers.get(event) || []`. -/
def busGet (m : EventBus) (event : String) : List Nat :=
  (mapGet m event).getD []

/-- Method `on(event, handler)`: push the handler onto the type's list. -/
def busOn (m : EventBus) (event : String) (handler : Nat) : EventBus :=
  mapSet m event (busGet m event ++ [handler])

/-- JavaScript `Array.prototype.indexOf`, index accumulated from `i`. -/
def indexOfFrom (handler : Nat) : List Nat → Nat → Option Nat
  | [], _ => none
  | x :: rest, i => if x = handler then some i else indexOfFrom handler rest (i + 1)

def indexOf (l : List Nat) (handler : Nat) : Option Nat :=
  indexOfFrom handler l 0

/-- JavaScript `Array.prototype.splice(i, 1)`: drop the element at index `i`. -/
def spliceAt (l : List Nat) (i : Nat) : List Nat :=
  l.take i ++ l.drop (i + 1)

/-- The unsubscribe closure `on` returns, applied to the bus state at
the moment it is invoked: look the handler up with `indexOf` and, when
present (`index > -1`), splice it out and store the list back. -/
def unsubscribe (m : EventBus) (event : String) (handler : Nat) : EventBus :=
  let currentHandlers := busGet m event
  match indexOf currentHandlers handler with
  | some i => mapSet m event (spliceAt currentHandlers i)
  | none => m

/-- What the `try`/`catch` around a handler call logs: nothing on normal
return, the caught error otherwise. -/
def logOf : Except String Unit → Option String
  | Except.ok _ => none
  | Except.error e => some e

/-- The `forEach` body of `emit`: invoke each handler in order inside
`try \x7b handler(data) \x7d catch (error) \x7b console.error(...) \x7d` —
on both outcomes the loop continues with the remaining handlers.  The
result records, per invoked handler, the error the `catch` logged; an
exception escaping `emit` would surface as `Except.error`. -/
def emitGo (behavior : Nat → Except String Unit) :
    List Nat → Except String (List (Nat × Option String))
  | [] => Except.ok []
  | handler :: rest =>
      match behavior handler with
      | Except.ok _ =>
          match emitGo behavior rest with
          | Except.ok tail => Except.ok ((handler, none) :: tail)
          | Except.error e => Except.error e
      | Except.error e =>
          match emitGo behavior rest with
          | Except.ok tail => Except.ok ((handler, some e) :: tail)
          | Except.error e2 => Except.error e2

/-- Method `emit(event, data)`: dispatch to the current handler list. -/
def emit (behavior : Nat → Except String Unit) (m : EventBus) (event : String) :
    Except String (List (Nat × Option String)) :=
  emitGo behavior (busGet m event)

theorem emitGo_ok (behavior : Nat → Except String Unit) (l : List Nat) :
    emitGo behavior l = Except.ok (l.map (fun h => (h, logOf (behavior h)))) := by
  induction l with
  | nil => rfl
  | cons h rest ih =>
      cases hb : behavior h <;> simp [emitGo, ih, hb, logOf]

theorem indexOfFrom_append (handler : Nat) (l1 l2 : List Nat) (i : Nat)
    (hnot : handler ∉ l1) :
    indexOfFrom handler (l1 ++ handler :: l2) i = some (i + l1.length) := by
  induction l1 generalizing i with
  | nil => simp [indexOfFrom]
  | cons x rest ih =>
      have hx : x ≠ handler := fun hh => hnot (by simp [hh])
      have hrest : handler ∉ rest := fun hh => hnot (by simp [hh])
      rw [List.cons_append]
      rw [show indexOfFrom handler (x :: (rest ++ handler :: l2)) i =
            if x = handler then some i
            else indexOfFrom handler (rest ++ handler :: l2) (i + 1) from rfl]
      rw [if_neg hx, ih _ hrest]
      exact congrArg some (by simp [List.length_cons]; omega)

theorem indexOfFrom_none (handler : Nat) (l : List Nat) (i : Nat)
    (hnot : handler ∉ l) : indexOfFrom handler l i = none := by
  induction l generalizing i with
  | nil => rfl
  | cons x rest ih =>
      have hx : x ≠ handler := fun hh => hnot (by simp [hh])
      have hrest : handler ∉ rest := fun hh => hnot (by simp [hh])
      simp [indexOfFrom, hx, ih _ hrest]

theorem spliceAt_append (l1 l2 : List Nat) (x : Nat) :
    spliceAt (l1 ++ x :: l2) l1.length = l1 ++ l2 := by
  induction l1 with
  | nil => simp [spliceAt]
  | cons y rest ih =>
      simp only [List.cons_append, spliceAt, List.length_cons, List.take_succ_cons,
        List.drop_succ_cons] at ih ⊢
      simp [spliceAt] at ih
      simp [ih]

/-- Drop each element of a list that a function fixes pointwise. -/
theorem map_noop {α : Type} (l : List α) (f : α → α) (h : ∀ a ∈ l, f a = a) :
    l.map f = l := by
  induction l with
  | nil => rfl
  | cons x xs ih =>
      simp only [List.map_cons, h x (by simp)]
      rw [ih (fun a ha => h a (by simp [ha]))]

/-- Project the first components back out of a graph-like list. -/
theorem map_fst_pair {α β : Type} (l : List α) (f : α → β) :
    (l.map (fun h => (h, f h))).map Prod.fst = l := by
  induction l with
  | nil => rfl
  | cons x xs ih => simp [ih]

/-! ## Concrete states used by counterexamples and witnesses -/

/-- A store state with no conversations and no registered servers. -/
def emptyAppState : AppState where
  conversations := []
  activeConversation := "default"
  mcpServers := []
  evolutionState := initialEvolutionState

/-- The documented initial store state: one empty default conversation. -/
def exStoreState : AppState where
  conversations := [("default", [])]
  activeConversation := "default"
  mcpServers := []
  evolutionState := initialEvolutionState

def msgM1 : ChatMessage where
  id := "m1"
  type := "user"
  content := "hi"
  agentId := none
  timestamp := 0
  metadata := none

def msgM2 : ChatMessage where
  id := "m2"
  type := "agent"
  content := "hello"
  agentId := none
  timestamp := 1
  metadata := none

def noMsgUpdate : ChatMessageUpdate := {}

def noServerUpdate : MCPServerUpdate := {}

/-- The `evolution_progress` merge of the spec scenario: generation 3
plus a replaced fitness history, nothing else. -/
def evoProgressUpdate : EvolutionUpdate where
  currentGeneration := some 3
  fitnessHistory := some [{ generation := 3, average := 1, best := 2, worst := 0 }]

/-- A session state whose socket is open (after one successful connect). -/
def openWSState : WSState where
  ws := some ReadyState.opened
  reconnectAttempts := 0
  isConnecting := false
  pendingTimers := []
  timersScheduled := []
  emitted := [WSEvent.connectionStatus true]
  socketsCreated := 1

/-- A session state in the middle of a reconnection episode: two
attempts already made, timers for both already fired. -/
def midWSState : WSState where
  ws := some ReadyState.closed
  reconnectAttempts := 2
  isConnecting := false
  pendingTimers := []
  timersScheduled := [1000, 2000]
  emitted := [WSEvent.connectionStatus false, WSEvent.connectionStatus false]
  socketsCreated := 2

/-- Execution: connect, socket opens, unclean close (code 1006), then
an explicit `disconnect()` while the reconnection timer is pending. -/
def reconnectPendingScript : List WSAction :=
  [WSAction.connectCall, WSAction.openEvt, WSAction.closeEvt 1006,
   WSAction.disconnectCall]

/-- Execution in which every connection attempt fails uncleanly until
the attempt cap is exhausted. -/
def exhaustScript : List WSAction :=
  [WSAction.connectCall, WSAction.closeEvt 1006,
   WSAction.timerEvt, WSAction.closeEvt 1006,
   WSAction.timerEvt, WSAction.closeEvt 1006,
   WSAction.timerEvt, WSAction.closeEvt 1006,
   WSAction.timerEvt, WSAction.closeEvt 1006,
   WSAction.timerEvt, WSAction.closeEvt 1006]

def exBus : EventBus := [("chat_response", [1, 2, 3])]

/-! ## Claim theorems -/

/-- C1.  The claim states that `disconnect()` cancels any pending
reconnection timer, so that the timer's expiry starts no new connection
attempt and the session never returns to Open without a new explicit
`connect()`.  The code contradicts this: no timer handle is ever
stored, `disconnect()` clears nothing, and the timer callback's guard
(`!this.ws || readyState === CLOSED`) is satisfied precisely because
`disconnect()` set `this.ws = null`, so the callback calls `connect()`.
This theorem evaluates the failing execution: after an unclean close
schedules a timer and `disconnect()` runs, the timer is still pending;
its expiry constructs a second socket, and the session reaches Open
with no `connect()` call after the disconnect. -/
theorem disconnect_leaves_timer_pending_and_reconnects :
    (wsRun initialWSState reconnectPendingScript).ws = none
    ∧ (wsRun initialWSState reconnectPendingScript).pendingTimers = [1000]
    ∧ (wsRun initialWSState reconnectPendingScript).socketsCreated = 1
    ∧ (wsRun initialWSState (reconnectPendingScript ++ [WSAction.timerEvt])).socketsCreated = 2
    ∧ (wsRun initialWSState (reconnectPendingScript ++ [WSAction.timerEvt])).isConnecting = true
    ∧ (wsRun initialWSState
        (reconnectPendingScript ++ [WSAction.timerEvt, WSAction.openEvt])).ws
        = some ReadyState.opened := by
  refine ⟨rfl, rfl, rfl, rfl, rfl, rfl⟩

/-- C2.  Exponential backoff: while the attempt counter is below the
cap, the n-th reconnection attempt (counter going from n-1 to n) is
scheduled with delay exactly `reconnectDelay * 2 ^ (n - 1)` and nothing
is emitted; once the counter has reached the cap, no further timer is
scheduled and a terminal `connection_failed` event carrying the attempt
count is emitted.  On the concrete exhausting execution the five delays
are 1000, 2000, 4000, 8000, 16000 and `connection_failed` is emitted
exactly once. -/
theorem handleReconnect_backoff_and_exhaustion :
    (∀ (s : WSState) (n : Nat), s.reconnectAttempts + 1 = n → n ≤ maxReconnectAttempts →
      (handleReconnect s).reconnectAttempts = n
      ∧ (handleReconnect s).pendingTimers
          = s.pendingTimers ++ [reconnectDelay * 2 ^ (n - 1)]
      ∧ (handleReconnect s).timersScheduled
          = s.timersScheduled ++ [reconnectDelay * 2 ^ (n - 1)]
      ∧ (handleReconnect s).emitted = s.emitted)
    ∧ (∀ s : WSState, maxReconnectAttempts ≤ s.reconnectAttempts →
      (handleReconnect s).pendingTimers = s.pendingTimers
      ∧ (handleReconnect s).timersScheduled = s.timersScheduled
      ∧ (handleReconnect s).emitted
          = s.emitted ++ [WSEvent.connectionFailed s.reconnectAttempts])
    ∧ ((wsRun initialWSState exhaustScript).timersScheduled
          = [1000, 2000, 4000, 8000, 16000]
      ∧ (wsRun initialWSState exhaustScript).pendingTimers = []
      ∧ (wsRun initialWSState exhaustScript).emitted.count (WSEvent.connectionFailed 5) = 1
      ∧ (wsRun initialWSState exhaustScript).reconnectAttempts = 5) := by
  refine ⟨?_, ?_, by decide⟩
  · intro s n h1 h2
    subst h1
    have hlt : ¬ (s.reconnectAttempts ≥ maxReconnectAttempts) := by omega
    simp [handleReconnect, hlt]
  · intro s hge
    simp [handleReconnect, hge]

theorem handleReconnect_backoff_witness :
    (handleReconnect midWSState).pendingTimers = [4000]
    ∧ (handleReconnect midWSState).reconnectAttempts = 3 := by
  have h := handleReconnect_backoff_and_exhaustion.1 midWSState 3 rfl (by decide)
  refine ⟨?_, h.1⟩
  rw [h.2.1]
  rfl

/-- C7.  `connect()` is idempotent while the socket is open: the call
returns the state unchanged and resolves immediately, so two
consecutive calls both resolve and no second socket is constructed. -/
theorem connect_idempotent_when_open :
    ∀ s : WSState, s.ws = some ReadyState.opened →
      connect s = (s, ConnectResult.resolvedOpen)
      ∧ (connect (connect s).1).1 = s
      ∧ (connect (connect s).1).2 = ConnectResult.resolvedOpen
      ∧ (connect (connect s).1).1.socketsCreated = s.socketsCreated := by
  intro s h
  have h1 : connect s = (s, ConnectResult.resolvedOpen) := by simp [connect, h]
  refine ⟨h1, ?_, ?_, ?_⟩ <;> simp [h1, connect, h]

theorem connect_idempotent_witness :
    connect openWSState = (openWSState, ConnectResult.resolvedOpen)
    ∧ (connect (connect openWSState).1).1.socketsCreated = 1 := by
  have h := connect_idempotent_when_open openWSState rfl
  exact ⟨h.1, h.2.2.2⟩

/-- C4.  A sequence of `addMessage` calls on one conversation appends
exactly the given messages in call order after the conversation's
previous contents (an absent conversation starting from the empty
list), leaves every other conversation's lookup unchanged, and leaves
the rest of the store untouched. -/
theorem addMessage_append_only :
    ∀ (conversationId : String) (ms : List ChatMessage) (s : AppState),
      ((mapGet (addMessages s conversationId ms).conversations conversationId).getD []
        = (mapGet s.conversations conversationId).getD [] ++ ms)
      ∧ (ms ≠ [] →
          mapGet (addMessages s conversationId ms).conversations conversationId
            = some ((mapGet s.conversations conversationId).getD [] ++ ms))
      ∧ (∀ k, k ≠ conversationId →
          mapGet (addMessages s conversationId ms).conversations k
            = mapGet s.conversations k)
      ∧ (addMessages s conversationId ms).activeConversation = s.activeConversation
      ∧ (addMessages s conversationId ms).mcpServers = s.mcpServers
      ∧ (addMessages s conversationId ms).evolutionState = s.evolutionState := by
  intro conversationId ms
  induction ms with
  | nil =>
      intro s
      exact ⟨by simp [addMessages], fun h => absurd rfl h, fun k _ => rfl, rfl, rfl, rfl⟩
  | cons m rest ih =>
      intro s
      have hself : mapGet (addMessage s conversationId m).conversations conversationId
          = some ((mapGet s.conversations conversationId).getD [] ++ [m]) := by
        simp [addMessage, mapGet_mapSet_self]
      have hframe : ∀ k, k ≠ conversationId →
          mapGet (addMessage s conversationId m).conversations k
            = mapGet s.conversations k := by
        intro k hk
        simp [addMessage, mapGet_mapSet_ne _ _ _ _ hk]
      obtain ⟨ih1, ih2, ih3, ih4, ih5, ih6⟩ := ih (addMessage s conversationId m)
      have hstep : addMessages s conversationId (m :: rest)
          = addMessages (addMessage s conversationId m) conversationId rest := rfl
      refine ⟨?_, ?_, ?_, ?_, ?_, ?_⟩
      · rw [hstep, ih1, hself]
        simp
      · intro _
        rw [hstep]
        by_cases hrest : rest = []
        · subst hrest
          rw [show addMessages (addMessage s conversationId m) conversationId []
                = addMessage s conversationId m from rfl, hself]
        · rw [ih2 hrest, hself]
          simp
      · intro k hk
        rw [hstep, ih3 k hk, hframe k hk]
      · exact ih4
      · exact ih5
      · exact ih6

theorem addMessage_append_only_witness :
    mapGet (addMessages exStoreState "default" [msgM1, msgM2]).conversations "default"
      = some [msgM1, msgM2]
    ∧ mapGet (addMessages exStoreState "default" [msgM1, msgM2]).conversations "other"
      = none := by
  have h := addMessage_append_only "default" [msgM1, msgM2] exStoreState
  refine ⟨?_, ?_⟩
  · have h2 := h.2.1 (by simp)
    rw [h2]
    rfl
  · have h3 := h.2.2.1 "other" (by decide)
    rw [h3]
    rfl

/-- C8 as amended.  `updateMessage` merges exactly the present fields
of the update into each message whose id matches, leaves every other
message and conversation and the rest of the store unchanged, and is a
no-op when the conversation exists but contains no message with that
id; when the conversation itself is absent, it inserts an empty message
list under that key (and changes nothing else). -/
theorem updateMessage_merge_by_id :
    ∀ (s : AppState) (conversationId messageId : String) (u : ChatMessageUpdate),
      (∀ msgs, mapGet s.conversations conversationId = some msgs →
        mapGet (updateMessage s conversationId messageId u).conversations conversationId
          = some (msgs.map (fun m => if m.id = messageId then mergeMessage m u else m)))
      ∧ (∀ msgs, mapGet s.conversations conversationId = some msgs →
          (∀ m ∈ msgs, m.id ≠ messageId) →
          updateMessage s conversationId messageId u = s)
      ∧ (mapGet s.conversations conversationId = none →
          (updateMessage s conversationId messageId u).conversations
            = mapSet s.conversations conversationId [])
      ∧ (∀ k, k ≠ conversationId →
          mapGet (updateMessage s conversationId messageId u).conversations k
            = mapGet s.conversations k)
      ∧ (updateMessage s conversationId messageId u).activeConversation
          = s.activeConversation
      ∧ (updateMessage s conversationId messageId u).mcpServers = s.mcpServers
      ∧ (updateMessage s conversationId messageId u).evolutionState = s.evolutionState
      ∧ (∀ m : ChatMessage,
          (mergeMessage m u).id = u.id.getD m.id
          ∧ (mergeMessage m u).type = u.type.getD m.type
          ∧ (mergeMessage m u).content = u.content.getD m.content
          ∧ (mergeMessage m u).agentId = u.agentId.getD m.agentId
          ∧ (mergeMessage m u).timestamp = u.timestamp.getD m.timestamp
          ∧ (mergeMessage m u).metadata = u.metadata.getD m.metadata) := by
  intro s conversationId messageId u
  refine ⟨?_, ?_, ?_, ?_, rfl, rfl, rfl, fun m => ⟨rfl, rfl, rfl, rfl, rfl, rfl⟩⟩
  · intro msgs h
    simp [updateMessage, h, mapGet_mapSet_self]
  · intro msgs h hall
    have hmap : msgs.map (fun m => if m.id = messageId then mergeMessage m u else m)
        = msgs :=
      map_noop msgs _ (fun m hm => if_neg (hall m hm))
    show { s with conversations := mapSet s.conversations conversationId (((mapGet s.conversations conversationId).getD []).map (fun m => if m.id = messageId then mergeMessage m u else m)) } = s
    rw [h]
    simp only [Option.getD_some]
    rw [hmap, mapSet_self _ _ _ h]
  · intro h
    simp [updateMessage, h]
  · intro k hk
    simp [updateMessage, mapGet_mapSet_ne _ _ _ _ hk]

/-- C8 counterexample.  On a store with no conversation at all, a call
whose message id (necessarily) matches nothing is not a no-op: the
claim says the store state is unchanged, but the code inserts an empty
conversation under the given key. -/
theorem updateMessage_absent_conversation_not_noop :
    updateMessage emptyAppState "c" "m1" noMsgUpdate ≠ emptyAppState
    ∧ (updateMessage emptyAppState "c" "m1" noMsgUpdate).conversations
      = [("c", [])] := by
  constructor
  · intro h
    have hc := congrArg AppState.conversations h
    simp [updateMessage, emptyAppState, mapGet, mapSet] at hc
  · rfl

theorem updateMessage_merge_by_id_witness :
    mapGet (updateMessage (addMessages exStoreState "default" [msgM1, msgM2])
        "default" "m1" { content := some "edited" }).conversations "default"
      = some [mergeMessage msgM1 { content := some "edited" }, msgM2] := by
  have h := (updateMessage_merge_by_id
      (addMessages exStoreState "default" [msgM1, msgM2]) "default" "m1"
      { content := some "edited" }).1 [msgM1, msgM2] (by rfl)
  rw [h]
  rfl

/-- C3 as amended.  `updateMCPServer` merges exactly the present fields
of the update into each registry record whose id matches, leaves every
other record (position by position) and the rest of the store
unchanged; when no record with that id exists the registry is left
unchanged — no record is inserted. -/
theorem updateMCPServer_merge_no_insert :
    ∀ (s : AppState) (serverId : String) (u : MCPServerUpdate),
      ((∀ r ∈ s.mcpServers, r.id ≠ serverId) → updateMCPServer s serverId u = s)
      ∧ (∀ i : Nat, (updateMCPServer s serverId u).mcpServers[i]?
          = (s.mcpServers[i]?).map
              (fun r => if r.id = serverId then mergeServer r u else r))
      ∧ (updateMCPServer s serverId u).conversations = s.conversations
      ∧ (updateMCPServer s serverId u).activeConversation = s.activeConversation
      ∧ (updateMCPServer s serverId u).evolutionState = s.evolutionState
      ∧ (∀ r : MCPServer,
          (mergeServer r u).id = u.id.getD r.id
          ∧ (mergeServer r u).name = u.name.getD r.name
          ∧ (mergeServer r u).type = u.type.getD r.type
          ∧ (mergeServer r u).status = u.status.getD r.status
          ∧ (mergeServer r u).version = u.version.getD r.version
          ∧ (mergeServer r u).description = u.description.getD r.description
          ∧ (mergeServer r u).capabilities = u.capabilities.getD r.capabilities
          ∧ (mergeServer r u).health = u.health.getD r.health
          ∧ (mergeServer r u).config = u.config.getD r.config
          ∧ (mergeServer r u).stats = u.stats.getD r.stats) := by
  intro s serverId u
  refine ⟨?_, ?_, rfl, rfl, rfl,
    fun r => ⟨rfl, rfl, rfl, rfl, rfl, rfl, rfl, rfl, rfl, rfl⟩⟩
  · intro hall
    have hmap : s.mcpServers.map
        (fun server => if server.id = serverId then mergeServer server u else server)
        = s.mcpServers :=
      map_noop s.mcpServers _ (fun r hr => if_neg (hall r hr))
    show { s with mcpServers := s.mcpServers.map (fun server => if server.id = serverId then mergeServer server u else server) } = s
    rw [hmap]
  · intro i
    simp [updateMCPServer, List.getElem?_map]

/-- C3 counterexample.  On a store whose registry is empty, updating an
unknown server id inserts nothing: the registry stays empty and the
whole state is unchanged, refuting the claimed upsert-insert branch. -/
theorem updateMCPServer_no_insert_counterexample :
    updateMCPServer emptyAppState "srv1" noServerUpdate = emptyAppState
    ∧ (updateMCPServer emptyAppState "srv1" noServerUpdate).mcpServers = [] := by
  exact ⟨rfl, rfl⟩

theorem updateMCPServer_merge_witness :
    updateMCPServer emptyAppState "srv1" noServerUpdate = emptyAppState := by
  exact (updateMCPServer_merge_no_insert emptyAppState "srv1" noServerUpdate).1
    (fun r hr => absurd hr (by simp [emptyAppState]))

/-- C9.  `updateEvolutionState` is a shallow partial merge with a frame
property: every top-level field present in the update is replaced with
the update's value, every top-level field absent from the update keeps
its previous value, and the rest of the store is untouched. -/
theorem updateEvolutionState_shallow_merge :
    ∀ (s : AppState) (u : EvolutionUpdate),
      (∀ b, u.isRunning = some b →
        (updateEvolutionState s u).evolutionState.isRunning = b)
      ∧ (u.isRunning = none →
        (updateEvolutionState s u).evolutionState.isRunning
          = s.evolutionState.isRunning)
      ∧ (∀ g, u.currentGeneration = some g →
        (updateEvolutionState s u).evolutionState.currentGeneration = g)
      ∧ (u.currentGeneration = none →
        (updateEvolutionState s u).evolutionState.currentGeneration
          = s.evolutionState.currentGeneration)
      ∧ (∀ g, u.maxGenerations = some g →
        (updateEvolutionState s u).evolutionState.maxGenerations = g)
      ∧ (u.maxGenerations = none →
        (updateEvolutionState s u).evolutionState.maxGenerations
          = s.evolutionState.maxGenerations)
      ∧ (∀ p, u.populationSize = some p →
        (updateEvolutionState s u).evolutionState.populationSize = p)
      ∧ (u.populationSize = none →
        (updateEvolutionState s u).evolutionState.populationSize
          = s.evolutionState.populationSize)
      ∧ (∀ r, u.bestRecipes = some r →
        (updateEvolutionState s u).evolutionState.bestRecipes = r)
      ∧ (u.bestRecipes = none →
        (updateEvolutionState s u).evolutionState.bestRecipes
          = s.evolutionState.bestRecipes)
      ∧ (∀ f, u.fitnessHistory = some f →
        (updateEvolutionState s u).evolutionState.fitnessHistory = f)
      ∧ (u.fitnessHistory = none →
        (updateEvolutionState s u).evolutionState.fitnessHistory
          = s.evolutionState.fitnessHistory)
      ∧ (∀ c, u.convergenceMetrics = some c →
        (updateEvolutionState s u).evolutionState.convergenceMetrics = c)
      ∧ (u.convergenceMetrics = none →
        (updateEvolutionState s u).evolutionState.convergenceMetrics
          = s.evolutionState.convergenceMetrics)
      ∧ (∀ t, u.elapsedTime = some t →
        (updateEvolutionState s u).evolutionState.elapsedTime = t)
      ∧ (u.elapsedTime = none →
        (updateEvolutionState s u).evolutionState.elapsedTime
          = s.evolutionState.elapsedTime)
      ∧ (updateEvolutionState s u).conversations = s.conversations
      ∧ (updateEvolutionState s u).activeConversation = s.activeConversation
      ∧ (updateEvolutionState s u).mcpServers = s.mcpServers := by
  intro s u
  refine ⟨fun b hb => ?_, fun hb => ?_, fun g hg => ?_, fun hg => ?_,
    fun g hg => ?_, fun hg => ?_, fun p hp => ?_, fun hp => ?_,
    fun r hr => ?_, fun hr => ?_, fun f hf => ?_, fun hf => ?_,
    fun c hc => ?_, fun hc => ?_, fun t ht => ?_, fun ht => ?_,
    rfl, rfl, rfl⟩ <;>
  simp [updateEvolutionState, mergeEvolution, *]

theorem updateEvolutionState_shallow_merge_witness :
    (updateEvolutionState exStoreState evoProgressUpdate).evolutionState.currentGeneration
      = 3
    ∧ (updateEvolutionState exStoreState evoProgressUpdate).evolutionState.maxGenerations
      = exStoreState.evolutionState.maxGenerations := by
  have h := updateEvolutionState_shallow_merge exStoreState evoProgressUpdate
  exact ⟨h.2.2.1 3 rfl, h.2.2.2.2.2.1 rfl⟩

/-- C10.  `setActiveConversation` records the new active conversation
id and guarantees the map has an entry for it afterwards: an absent id
gets an empty message list, a present id keeps its list unchanged, and
every other conversation and store field is untouched. -/
theorem setActiveConversation_ensures_entry :
    ∀ (s : AppState) (conversationId : String),
      (setActiveConversation s conversationId).activeConversation = conversationId
      ∧ mapGet (setActiveConversation s conversationId).conversations conversationId
          = some ((mapGet s.conversations conversationId).getD [])
      ∧ (∀ msgs, mapGet s.conversations conversationId = some msgs →
          mapGet (setActiveConversation s conversationId).conversations conversationId
            = some msgs)
      ∧ (∀ k, k ≠ conversationId →
          mapGet (setActiveConversation s conversationId).conversations k
            = mapGet s.conversations k)
      ∧ (setActiveConversation s conversationId).mcpServers = s.mcpServers
      ∧ (setActiveConversation s conversationId).evolutionState = s.evolutionState := by
  intro s conversationId
  by_cases h : (mapGet s.conversations conversationId).isSome
  · obtain ⟨msgs, hm⟩ := Option.isSome_iff_exists.mp h
    refine ⟨rfl, ?_, ?_, ?_, ?_, ?_⟩ <;>
      simp [setActiveConversation, h, hm]
  · have hnone : mapGet s.conversations conversationId = none :=
      Option.not_isSome_iff_eq_none.mp h
    refine ⟨rfl, ?_, ?_, ?_, ?_, ?_⟩
    · simp [setActiveConversation, h, hnone, mapGet_mapSet_self]
    · intro msgs hm
      rw [hnone] at hm
      exact absurd hm (by simp)
    · intro k hk
      simp [setActiveConversation, h, mapGet_mapSet_ne _ _ _ _ hk]
    · simp [setActiveConversation]
    · simp [setActiveConversation]

theorem setActiveConversation_witness :
    (setActiveConversation emptyAppState "conv").activeConversation = "conv"
    ∧ mapGet (setActiveConversation emptyAppState "conv").conversations "conv"
      = some []
    ∧ mapGet (setActiveConversation emptyAppState "conv").conversations "default"
      = none := by
  have h := setActiveConversation_ensures_entry emptyAppState "conv"
  refine ⟨h.1, ?_, ?_⟩
  · rw [h.2.1]
    rfl
  · rw [h.2.2.2.1 "default" (by decide)]
    rfl

/-- C5.  Handler registration via `on` appends to the type's list
(registration order), touching no other type; the unsubscribe closure
returned by `on` removes exactly the first occurrence of that handler
and leaves all remaining handlers in their original order (and is a
no-op when the handler is not registered); and `emit` invokes exactly
the currently registered handlers of the type, in list order. -/
theorem bus_registration_order_and_unsubscribe :
    ∀ (m : EventBus) (event : String) (handler : Nat)
      (behavior : Nat → Except String Unit),
      busGet (busOn m event handler) event = busGet m event ++ [handler]
      ∧ (∀ event', event' ≠ event →
          busGet (busOn m event handler) event' = busGet m event')
      ∧ (∀ l1 l2, busGet m event = l1 ++ handler :: l2 → handler ∉ l1 →
          busGet (unsubscribe m event handler) event = l1 ++ l2)
      ∧ (handler ∉ busGet m event → unsubscribe m event handler = m)
      ∧ (∃ results, emit behavior m event = Except.ok results
          ∧ results.map Prod.fst = busGet m event) := by
  intro m event handler behavior
  refine ⟨?_, ?_, ?_, ?_, ?_⟩
  · simp [busOn, busGet, mapGet_mapSet_self]
  · intro event' he'
    simp [busOn, busGet, mapGet_mapSet_ne _ _ _ _ he']
  · intro l1 l2 hsplit hnot
    have hidx : indexOf (busGet m event) handler = some l1.length := by
      rw [hsplit]
      rw [show indexOf (l1 ++ handler :: l2) handler
            = indexOfFrom handler (l1 ++ handler :: l2) 0 from rfl]
      rw [indexOfFrom_append _ _ _ _ hnot]
      simp
    have hstep : unsubscribe m event handler
        = mapSet m event (spliceAt (busGet m event) l1.length) := by
      show (match indexOf (busGet m event) handler with
            | some i => mapSet m event (spliceAt (busGet m event) i)
            | none => m)
          = mapSet m event (spliceAt (busGet m event) l1.length)
      rw [hidx]
    rw [hstep]
    have hget : busGet (mapSet m event (spliceAt (busGet m event) l1.length)) event
        = spliceAt (busGet m event) l1.length := by
      simp [busGet, mapGet_mapSet_self]
    rw [hget, hsplit]
    exact spliceAt_append l1 l2 handler
  · intro hnot
    have hidx : indexOf (busGet m event) handler = none :=
      indexOfFrom_none _ _ _ hnot
    simp [unsubscribe, hidx]
  · refine ⟨_, emitGo_ok behavior (busGet m event), ?_⟩
    exact map_fst_pair (busGet m event) (fun h => logOf (behavior h))

theorem bus_registration_order_witness :
    busGet (busOn exBus "chat_response" 4) "chat_response" = [1, 2, 3, 4]
    ∧ busGet (unsubscribe exBus "chat_response" 2) "chat_response" = [1, 3] := by
  refine ⟨?_, ?_⟩
  · have h := (bus_registration_order_and_unsubscribe exBus "chat_response" 4
      (fun _ => Except.ok ())).1
    rw [h]
    rfl
  · have h := (bus_registration_order_and_unsubscribe exBus "chat_response" 2
      (fun _ => Except.ok ())).2.2.1 [1] [3] (by rfl) (by decide)
    rw [h]
    rfl

/-- C6.  Dispatch error isolation: for every handler behaviour, `emit`
returns normally (the handler-level `try`/`catch` means no exception
reaches the publisher), every registered handler of the type is invoked
in order — in particular every handler registered after a throwing one
still runs — and a throwing handler's error is caught and logged. -/
theorem emit_isolates_handler_errors :
    ∀ (behavior : Nat → Except String Unit) (m : EventBus) (event : String),
      ∃ results,
        emit behavior m event = Except.ok results
        ∧ results = (busGet m event).map (fun h => (h, logOf (behavior h)))
        ∧ results.map Prod.fst = busGet m event := by
  intro behavior m event
  refine ⟨_, emitGo_ok behavior (busGet m event), rfl, ?_⟩
  exact map_fst_pair (busGet m event) (fun h => logOf (behavior h))

end PyGent
